import Mathlib

/-!
Verification development for the omarchist theme-loading and caching core.

The Rust sources under `src-tauri/src/services/themes/` and
`src-tauri/src/services/cache/` are shallowly embedded below:

* pure helpers (`dir_name_to_title`, `base64_encode`, MIME selection,
  config validation) become Lean functions over `List Char` / `List Nat` /
  `String`;
* filesystem facts consulted by a theme unit of work (directory name,
  presence of `custom_theme.json`, symlink status, directory listing)
  become fields of an explicit `ThemeDir` record, so that each embedded
  function reads exactly the facts the source reads;
* the shared `ColorCache` (a `HashMap<String, Option<ThemeColors>>`
  behind a lock) becomes an association list with the map's insert /
  lookup / clear / len semantics, and the async orchestration is
  linearized: the per-directory tasks are run in order, threading the
  color cache through them;
* fallible operations return `Except String` exactly where the source
  returns `Result<_, String>`.

The `ThemeCache` manager (`theme_cache.rs`) is not among the provided
sources; its operations used by `get_sys_themes.rs` are modelled from the
spec (sections 3 and 4.1) and are marked as such in their doc comments.
-/

/-- Primary color pair of a palette (modelled from the spec, section 3:
`types.rs` is not among the provided sources). -/
structure ThemePrimary where
  background : String
  foreground : String
deriving DecidableEq, Repr

/-- Named terminal colors of a palette (modelled from the spec, section 3). -/
structure TerminalColors where
  black : String
  red : String
  green : String
  yellow : String
  blue : String
  magenta : String
  cyan : String
  white : String
deriving DecidableEq, Repr

/-- Extracted color palette (`ThemeColors` in `types.rs`, modelled from the
spec, section 3, and the field accesses in the sources' tests). -/
structure ThemeColors where
  primary : ThemePrimary
  terminal : TerminalColors
deriving DecidableEq, Repr

/-- `SysTheme` from `get_sys_themes.rs`. -/
structure SysTheme where
  dir : String
  title : String
  description : String
  image : String
  is_system : Bool
  is_custom : Bool
  colors : Option ThemeColors
deriving DecidableEq, Repr

/-- `ThemeMetadata` from `optimized_theme_loader.rs`. -/
structure ThemeMetadata where
  dir : String
  title : String
  is_system : Bool
  is_custom : Bool
  has_colors : Bool
  has_image : Bool
deriving DecidableEq, Repr

/-- The ASCII fragment of Rust's `char::to_uppercase` as used on
directory names: a lowercase ASCII letter is mapped to the corresponding
uppercase letter, everything else is left unchanged.  The Rust function
performs full Unicode uppercasing and may expand one character to
several (the source writes `title.extend(c.to_uppercase())`, e.g.
U+00DF expands to `"SS"`); this single-character model agrees with it
exactly on ASCII characters, so every theorem below about the title
transform's shape is restricted to ASCII inputs. -/
def rustCharToUpper (c : Char) : Char :=
  if 97 ≤ c.toNat ∧ c.toNat ≤ 122 then Char.ofNat (c.toNat - 32) else c

/-- Is the character one of the word boundaries the title transform
replaces (the `'-' | '_'` match arm)? -/
def isBoundaryChar (c : Char) : Bool :=
  c = '-' || c = '_'

/-- Character loop of `dir_name_to_title` (`optimized_theme_loader.rs`,
also inlined in `generate_theme_from_directory` in `get_sys_themes.rs`):
`cap` is the `capitalize_next` flag, initially `true`. -/
def titleGo (cap : Bool) : List Char → List Char
  | [] => []
  | c :: rest =>
    if isBoundaryChar c then ' ' :: titleGo true rest
    else if cap then rustCharToUpper c :: titleGo false rest
    else c :: titleGo false rest

/-- `dir_name_to_title` from `optimized_theme_loader.rs`.  Through
`rustCharToUpper` this agrees with the source exactly on ASCII directory
names; on non-ASCII names the source applies Unicode uppercasing with
possible multi-character expansion, which the model does not capture. -/
def dir_name_to_title (s : String) : String :=
  String.mk (titleGo true s.data)

/-- The title transform as the claim words it: every *run* of `-`/`_`
characters becomes a single space (`inRun` tracks whether the previous
character was a boundary).  Used only to compare the claim's wording with
the source's behavior. -/
def titleRunCollapseGo (cap inRun : Bool) : List Char → List Char
  | [] => []
  | c :: rest =>
    if isBoundaryChar c then
      if inRun then titleRunCollapseGo true true rest
      else ' ' :: titleRunCollapseGo true true rest
    else if cap then rustCharToUpper c :: titleRunCollapseGo false false rest
    else c :: titleRunCollapseGo false false rest

/-- The claim's version of the title transform (runs collapsed to one
space). -/
def titleRunCollapse (s : String) : String :=
  String.mk (titleRunCollapseGo true false s.data)

/-- The `capitalize_next` flag observed at position `i` of the input:
true at the start of the string and right after a `-`/`_` character. -/
def capFlagAt (d : List Char) (i : Nat) : Bool :=
  if i = 0 then true
  else (d.get? (i - 1)).elim false isBoundaryChar

/-- `ColorCache` from `optimized_theme_loader.rs`: a
`HashMap<String, Option<ThemeColors>>` behind an `RwLock`, modelled as an
association list without duplicate keys (`cacheSet` replaces the entry
for an existing key, as `HashMap::insert` does). -/
def ColorCache := List (String × Option ThemeColors)

instance : DecidableEq ColorCache :=
  inferInstanceAs (DecidableEq (List (String × Option ThemeColors)))

/-- `ColorCache::new` / the state after `ColorCache::clear`. -/
def cacheNew : ColorCache := []

/-- `ColorCache::get`. -/
def cacheGet (m : ColorCache) (k : String) : Option (Option ThemeColors) :=
  (m.find? (fun p => p.1 = k)).map (·.2)

/-- `ColorCache::set` (`HashMap::insert`: replaces the value of an
existing key, otherwise adds the key). -/
def cacheSet (m : ColorCache) (k : String) (v : Option ThemeColors) : ColorCache :=
  (k, v) :: m.filter (fun p => ¬ p.1 = k)

/-- `ColorCache::clear`. -/
def cacheClear (_m : ColorCache) : ColorCache := []

/-- `ColorCache::size` (`HashMap::len`). -/
def cacheSize (m : ColorCache) : Nat := m.length

/-- Replay a sequence of `set` operations on a cache (used to state what
holds for keys never passed to `set`). -/
def cacheApplySets (ops : List (String × Option ThemeColors)) (m : ColorCache) : ColorCache :=
  ops.foldl (fun acc p => cacheSet acc p.1 p.2) m

/-- The base64 alphabet (`CHARS` in the three `base64_encode` copies). -/
def b64CHARS : List Char :=
  "ABCDEFGHIJKLMNOPQRSTUVWXYZabcdefghijklmnopqrstuvwxyz0123456789+/".data

/-- `CHARS[v]`; every index used by the encoder is `< 64`. -/
def b64idx (v : Nat) : Char := b64CHARS.getD v 'A'

/-- `base64_encode` from `optimized_theme_loader.rs`.  The source walks
`data.chunks(3)`, zero-pads the last chunk into `buf`, packs
`b = buf[0] << 16 | buf[1] << 8 | buf[2]` (which is `< 2^24`, so the
shifts never overflow `u32`) and emits `CHARS[(b >> k) & 63]`; here
`(b >> k) & 63` is written `b / 2^k % 64`.  The `[a]` / `[a, b]` cases
are the short final chunk, with its `=` padding. -/
def base64_encode : List Nat → List Char
  | [] => []
  | [a1] =>
    let b := a1 * 65536
    [b64idx (b / 262144 % 64), b64idx (b / 4096 % 64), '=', '=']
  | [a1, a2] =>
    let b := a1 * 65536 + a2 * 256
    [b64idx (b / 262144 % 64), b64idx (b / 4096 % 64), b64idx (b / 64 % 64), '=']
  | a1 :: a2 :: a3 :: rest =>
    let b := a1 * 65536 + a2 * 256 + a3
    b64idx (b / 262144 % 64) :: b64idx (b / 4096 % 64) :: b64idx (b / 64 % 64)
      :: b64idx (b % 64) :: base64_encode rest

/-- The textually identical private `base64_encode` in `get_sys_themes.rs`. -/
def base64_encode_sys : List Nat → List Char
  | [] => []
  | [a1] =>
    let b := a1 * 65536
    [b64idx (b / 262144 % 64), b64idx (b / 4096 % 64), '=', '=']
  | [a1, a2] =>
    let b := a1 * 65536 + a2 * 256
    [b64idx (b / 262144 % 64), b64idx (b / 4096 % 64), b64idx (b / 64 % 64), '=']
  | a1 :: a2 :: a3 :: rest =>
    let b := a1 * 65536 + a2 * 256 + a3
    b64idx (b / 262144 % 64) :: b64idx (b / 4096 % 64) :: b64idx (b / 64 % 64)
      :: b64idx (b % 64) :: base64_encode_sys rest

/-- The textually identical private `base64_encode` in `custom_themes.rs`. -/
def base64_encode_custom : List Nat → List Char
  | [] => []
  | [a1] =>
    let b := a1 * 65536
    [b64idx (b / 262144 % 64), b64idx (b / 4096 % 64), '=', '=']
  | [a1, a2] =>
    let b := a1 * 65536 + a2 * 256
    [b64idx (b / 262144 % 64), b64idx (b / 4096 % 64), b64idx (b / 64 % 64), '=']
  | a1 :: a2 :: a3 :: rest =>
    let b := a1 * 65536 + a2 * 256 + a3
    b64idx (b / 262144 % 64) :: b64idx (b / 4096 % 64) :: b64idx (b / 64 % 64)
      :: b64idx (b % 64) :: base64_encode_custom rest

/-- The value a character stands for in the base64 alphabet (the
standard RFC 4648 decoding table, used only to verify the encoder). -/
def b64val (c : Char) : Option Nat := b64CHARS.indexOf? c

/-- Standard RFC 4648 base64 decoder with `=` padding (verification
artifact, not from the source): consumes blocks of four characters;
a block ending in `==` carries one byte, a block ending in `=` carries
two, a full block carries three. -/
def base64_decode : List Char → Option (List Nat)
  | [] => some []
  | c1 :: c2 :: c3 :: c4 :: rest =>
    if c3 = '=' ∧ c4 = '=' ∧ rest = [] then
      match b64val c1, b64val c2 with
      | some v1, some v2 => some [(v1 * 262144 + v2 * 4096) / 65536]
      | _, _ => none
    else if c4 = '=' ∧ rest = [] then
      match b64val c1, b64val c2, b64val c3 with
      | some v1, some v2, some v3 =>
        let b := v1 * 262144 + v2 * 4096 + v3 * 64
        some [b / 65536, b / 256 % 256]
      | _, _, _ => none
    else
      match b64val c1, b64val c2, b64val c3, b64val c4, base64_decode rest with
      | some v1, some v2, some v3, some v4, some tail =>
        let b := v1 * 262144 + v2 * 4096 + v3 * 64 + v4
        some (b / 65536 :: b / 256 % 256 :: b % 256 :: tail)
      | _, _, _, _, _ => none
  | _ => none

/-- One file inside a theme directory, as seen by the image scan:
whether the entry `is_file()`, its `extension()` (as `&str`, absent when
the path has no extension or it is not valid UTF-8), and the bytes
`fs::read` would return (`none` when the read fails). -/
structure FileEnt where
  isFile : Bool
  ext : Option String
  content : Option (List Nat)
deriving DecidableEq

/-- The facts about one theme directory that the loader consults:
`file_name().and_then(to_str)` (absent when not representable), whether
`custom_theme.json` `is_file()` / `exists()`, the outcome of the whole
custom-JSON read/parse/extract chain, whether `alacritty.toml` exists and
what `ColorExtractor::extract_from_alacritty_config` returns for it
(the `ColorExtractor` collaborator is external to the core), the symlink
flag `symlink_metadata().map(is_symlink).unwrap_or(false)`, whether
`read_dir` on the directory succeeds, and its file entries. -/
structure ThemeDir where
  name : Option String
  customIsFile : Bool
  customExists : Bool
  customExtract : Option ThemeColors
  alacrittyExists : Bool
  alacrittyExtract : Option ThemeColors
  isSymlink : Bool
  readDirOk : Bool
  files : List FileEnt
deriving DecidableEq

/-- ASCII model of Rust's `str::to_lowercase` as applied to file
extensions: each uppercase ASCII letter is mapped to the corresponding
lowercase letter. -/
def rustCharToLower (c : Char) : Char :=
  if 65 ≤ c.toNat ∧ c.toNat ≤ 90 then Char.ofNat (c.toNat + 32) else c

/-- Lowercase a string (`ext.to_lowercase()`), ASCII model. -/
def strToLower (s : String) : String :=
  String.mk (s.data.map rustCharToLower)

/-- Lowercased-extension membership in the supported image set
(`matches!(ext_lower.as_str(), "png" | "jpg" | "jpeg" | "webp" | "gif" | "svg")`). -/
def isImageExtStr (e : String) : Bool :=
  (["png", "jpg", "jpeg", "webp", "gif", "svg"] : List String).contains (strToLower e)

/-- Does this directory entry pass the image scan's filter
(`is_file()` and a supported extension, compared in lowercase)? -/
def fileIsImage (f : FileEnt) : Bool :=
  f.isFile && (match f.ext with
    | some e => isImageExtStr e
    | none => false)

/-- MIME selection of `convert_image_to_data_url`: an exact match on the
raw (not lowercased) extension, defaulting to `image/png`. -/
def mimeForExt : Option String → String
  | some "png" => "image/png"
  | some "jpg" => "image/jpeg"
  | some "jpeg" => "image/jpeg"
  | some "gif" => "image/gif"
  | some "webp" => "image/webp"
  | some "svg" => "image/svg+xml"
  | _ => "image/png"

/-- The MIME correspondence as the claim words it: the MIME type
corresponding to the (case-insensitively matched) extension. -/
def mimeForExtClaim (e : String) : String :=
  match strToLower e with
  | "jpg" => "image/jpeg"
  | "jpeg" => "image/jpeg"
  | "gif" => "image/gif"
  | "webp" => "image/webp"
  | "svg" => "image/svg+xml"
  | _ => "image/png"

/-- `convert_image_to_data_url` from `optimized_theme_loader.rs` (the
file was produced by directory enumeration, so the up-front `exists()`
check holds; the fallible step is `fs::read`). -/
def convert_image_to_data_url (f : FileEnt) : Except String String :=
  match f.content with
  | none => Except.error "Failed to read image file"
  | some data =>
    Except.ok ("data:" ++ mimeForExt f.ext ++ ";base64," ++ String.mk (base64_encode data))

/-- The entry loop of `find_and_convert_image`: the first entry that is a
file with a supported image extension is converted, and its conversion
result (success or failure) is returned; entries that do not match are
skipped. -/
def findImageGo : List FileEnt → Except String String
  | [] => Except.ok ""
  | f :: rest =>
    if fileIsImage f then convert_image_to_data_url f else findImageGo rest

/-- `find_and_convert_image` from `optimized_theme_loader.rs`: a failed
`read_dir` yields `Ok("")`. -/
def find_and_convert_image (d : ThemeDir) : Except String String :=
  if d.readDirOk then findImageGo d.files else Except.ok ""

/-- `load_theme_image_async` from `optimized_theme_loader.rs`: a failed
conversion is logged and becomes the empty string. -/
def load_theme_image_async (d : ThemeDir) : String :=
  match find_and_convert_image d with
  | Except.ok s => s
  | Except.error _ => ""

/-- `has_image_files` from `optimized_theme_loader.rs`. -/
def has_image_files (d : ThemeDir) : Bool :=
  d.readDirOk && d.files.any fileIsImage

/-- `extract_theme_colors_direct` from `optimized_theme_loader.rs`: for a
custom theme whose `custom_theme.json` exists, a successful
read/parse/extract chain wins; otherwise fall back to `alacritty.toml`
extraction when that file exists; otherwise no palette. -/
def extract_theme_colors_direct (d : ThemeDir) (is_custom : Bool) : Option ThemeColors :=
  match (if is_custom && d.customExists then d.customExtract else none) with
  | some cs => some cs
  | none => if d.alacrittyExists then d.alacrittyExtract else none

/-- `extract_theme_colors_cached` from `optimized_theme_loader.rs`:
a missing directory name yields `None` without touching the cache;
a cache hit is returned as is; a miss computes the direct extraction and
stores the result (even `None`) before returning it.  The updated cache
is returned alongside the result. -/
def extract_theme_colors_cached (d : ThemeDir) (is_custom : Bool) (cc : ColorCache) :
    Option ThemeColors × ColorCache :=
  match d.name with
  | none => (none, cc)
  | some nm =>
    match cacheGet cc nm with
    | some cached => (cached, cc)
    | none =>
      let cs := extract_theme_colors_direct d is_custom
      (cs, cacheSet cc nm cs)

/-- `generate_theme_metadata` from `optimized_theme_loader.rs`. -/
def generate_theme_metadata (d : ThemeDir) : Except String ThemeMetadata :=
  match d.name with
  | none => Except.error "Invalid directory name"
  | some nm =>
    Except.ok {
      dir := nm
      title := dir_name_to_title nm
      is_system := if d.customIsFile then false else d.isSymlink
      is_custom := d.customIsFile
      has_colors := d.customExists || d.alacrittyExists
      has_image := has_image_files d }

/-- `generate_theme_from_directory_async` from `optimized_theme_loader.rs`
(the updated color cache is returned alongside the result). -/
def generate_theme_from_directory_async (d : ThemeDir) (cc : ColorCache) :
    Except String SysTheme × ColorCache :=
  match d.name with
  | none => (Except.error "Invalid directory name", cc)
  | some nm =>
    let is_custom := d.customIsFile
    let is_system := if is_custom then false else d.isSymlink
    let (colors, cc') := extract_theme_colors_cached d is_custom cc
    (Except.ok {
      dir := nm
      title := dir_name_to_title nm
      description := "Auto-generated theme from " ++ nm
      image := load_theme_image_async d
      is_system := is_system
      is_custom := is_custom
      colors := colors }, cc')

instance {e a : Type} [DecidableEq e] [DecidableEq a] : DecidableEq (Except e a)
  | Except.error x, Except.error y =>
    if h : x = y then Decidable.isTrue (by rw [h])
    else Decidable.isFalse (by intro hc; cases hc; exact h rfl)
  | Except.error _, Except.ok _ => Decidable.isFalse (by intro hc; cases hc)
  | Except.ok _, Except.error _ => Decidable.isFalse (by intro hc; cases hc)
  | Except.ok x, Except.ok y =>
    if h : x = y then Decidable.isTrue (by rw [h])
    else Decidable.isFalse (by intro hc; cases hc; exact h rfl)

/-- One entry of the themes root enumeration: whether `path.is_dir()`,
and the directory's facts when it is one. -/
structure RootEntry where
  isDir : Bool
  dir : ThemeDir
deriving DecidableEq

/-- The filesystem state `load_themes_parallel` consults: whether
`dirs::home_dir()` resolves, whether the themes root exists, and the
outcome of `fs::read_dir` on it (each yielded entry is itself a
`Result`). -/
structure LoaderEnv where
  homeResolves : Bool
  rootExists : Bool
  readDir : Except String (List (Except String RootEntry))
deriving DecidableEq

/-- Entry loop of `collect_theme_paths`: the first failing entry aborts
with its error; directory entries are kept, file entries skipped. -/
def collectGo : List (Except String RootEntry) → Except String (List ThemeDir)
  | [] => Except.ok []
  | Except.error e :: _ => Except.error ("Failed to read directory entry: " ++ e)
  | Except.ok ent :: rest =>
    match collectGo rest with
    | Except.error e => Except.error e
    | Except.ok tail => Except.ok (if ent.isDir then ent.dir :: tail else tail)

/-- `collect_theme_paths` from `optimized_theme_loader.rs`. -/
def collect_theme_paths (readDir : Except String (List (Except String RootEntry))) :
    Except String (List ThemeDir) :=
  match readDir with
  | Except.error e => Except.error ("Failed to read themes directory: " ++ e)
  | Except.ok entries => collectGo entries

/-- The per-directory units of work, linearized: each directory's task is
run in order and the shared color cache is threaded through; the list of
per-unit outcomes is returned alongside the final cache. -/
def runUnits : List ThemeDir → ColorCache → List (Except String SysTheme) × ColorCache
  | [], cc => ([], cc)
  | d :: rest, cc =>
    let (r, cc') := generate_theme_from_directory_async d cc
    let (rs, cc'') := runUnits rest cc'
    (r :: rs, cc'')

/-- The successful outcomes among a list of unit results. -/
def unitSuccesses (rs : List (Except String SysTheme)) : List SysTheme :=
  rs.filterMap (fun r => match r with
    | Except.ok t => some t
    | Except.error _ => none)

/-- `load_themes_parallel` from `optimized_theme_loader.rs`: fail when
the home directory cannot be resolved, the themes root is missing, or
its enumeration fails; return `Ok([])` for zero candidates; otherwise
run one unit per directory, keep the successes and log the failures. -/
def load_themes_parallel (env : LoaderEnv) (cc : ColorCache) :
    Except String (List SysTheme) × ColorCache :=
  if !env.homeResolves then (Except.error "Failed to get home directory", cc)
  else if !env.rootExists then (Except.error "Themes directory does not exist", cc)
  else
    match collect_theme_paths env.readDir with
    | Except.error e => (Except.error e, cc)
    | Except.ok dirs =>
      if dirs.isEmpty then (Except.ok [], cc)
      else
        let (rs, cc') := runUnits dirs cc
        (Except.ok (unitSuccesses rs), cc')

/-- Modelled from the spec: the `ThemeCache` snapshot (`theme_cache.rs`
is not among the provided sources).  Spec, section 3: a snapshot is a
theme list plus freshness; it is created empty, replaced wholesale by
`cache_themes`, and emptied by full invalidation.  `fresh` stands for
"`now - last_refreshed_at < ttl` and no full invalidation since then". -/
structure CacheState where
  themes : List SysTheme
  fresh : Bool
deriving DecidableEq

/-- Modelled from the spec (section 4.1): `is_cache_valid` — a snapshot
is valid iff it is fresh and non-empty. -/
def is_cache_valid (c : CacheState) : Bool :=
  c.fresh && !c.themes.isEmpty

/-- Modelled from the spec (section 4.1): `is_empty`. -/
def cache_is_empty (c : CacheState) : Bool :=
  c.themes.isEmpty

/-- Modelled from the spec (section 4.1): `get_themes` returns the
snapshot verbatim; the snapshot always exists once the cache object does,
so in this model it never fails. -/
def cache_get_themes (c : CacheState) : List SysTheme :=
  c.themes

/-- Modelled from the spec (section 4.1): `cache_themes(themes, false)`
atomically replaces the snapshot and resets its freshness. -/
def cache_themes_op (_c : CacheState) (ts : List SysTheme) : CacheState :=
  { themes := ts, fresh := true }

/-- Modelled from the spec (section 4.1): `invalidate` clears the whole
snapshot and forces the next read to treat the cache as empty/invalid. -/
def cache_invalidate (_c : CacheState) : CacheState :=
  { themes := [], fresh := false }

/-- `get_sys_themes_direct` from `get_sys_themes.rs`: scan via
`load_themes_parallel`; on success, opportunistically store the result in
the theme cache when one is available (`tc = none` models
`get_theme_cache()` failing). -/
def get_sys_themes_direct (env : LoaderEnv) (cc : ColorCache) (tc : Option CacheState) :
    Except String (List SysTheme) × ColorCache × Option CacheState :=
  let (r, cc') := load_themes_parallel env cc
  match r with
  | Except.error e => (Except.error e, cc', tc)
  | Except.ok ts => (Except.ok ts, cc', tc.map (fun c => cache_themes_op c ts))

/-- `get_sys_themes` from `get_sys_themes.rs`: serve a valid, non-empty
cached snapshot; otherwise fall through to the direct scan. -/
def get_sys_themes (env : LoaderEnv) (cc : ColorCache) (tc : Option CacheState) :
    Except String (List SysTheme) × ColorCache × Option CacheState :=
  match tc with
  | some c =>
    if is_cache_valid c && !cache_is_empty c then (Except.ok (cache_get_themes c), cc, some c)
    else get_sys_themes_direct env cc (some c)
  | none => get_sys_themes_direct env cc none

/-- `refresh_theme_cache` from `get_sys_themes.rs`: clear the color
cache, invalidate the theme cache, reload via `get_sys_themes`, cache a
successful result, wrap and propagate a failure.  When no cache handle
is available, fall back to `get_sys_themes` directly. -/
def refresh_theme_cache (env : LoaderEnv) (_cc : ColorCache) (tc : Option CacheState) :
    Except String (List SysTheme) × ColorCache × Option CacheState :=
  let cc0 : ColorCache := cacheNew
  match tc with
  | some c =>
    let c1 := cache_invalidate c
    let (r, cc1, tc1) := get_sys_themes env cc0 (some c1)
    match r with
    | Except.ok ts => (Except.ok ts, cc1, tc1.map (fun cx => cache_themes_op cx ts))
    | Except.error e =>
      (Except.error ("Failed to load themes during cache refresh: " ++ e), cc1, tc1)
  | none => get_sys_themes env cc0 none

/-- `get_themes_cached` from `get_sys_themes.rs`: serve a valid,
non-empty snapshot; otherwise load via `get_sys_themes` and cache a
success; on a load failure, serve the cache's current themes when they
are non-empty (stale fallback), otherwise return the load error.  When
no cache handle is available, fall back to `get_sys_themes` directly. -/
def get_themes_cached (env : LoaderEnv) (cc : ColorCache) (tc : Option CacheState) :
    Except String (List SysTheme) × ColorCache × Option CacheState :=
  match tc with
  | some c =>
    if is_cache_valid c && !cache_is_empty c then (Except.ok (cache_get_themes c), cc, some c)
    else
      let (r, cc1, tc1) := get_sys_themes env cc (some c)
      match r with
      | Except.ok ts => (Except.ok ts, cc1, tc1.map (fun cx => cache_themes_op cx ts))
      | Except.error e =>
        match tc1 with
        | some cx =>
          if !(cache_get_themes cx).isEmpty then (Except.ok (cache_get_themes cx), cc1, tc1)
          else (Except.error e, cc1, tc1)
        | none => (Except.error e, cc1, tc1)
  | none => get_sys_themes env cc none

/-- `CacheConfig` from `theme_cache.rs` (field list as used by
`cache_config.rs` and its tests; numeric fields are `u32`, modelled as
`Nat` — only their zero tests matter to validation). -/
structure CacheConfig where
  cache_duration_minutes : Nat
  preload_on_startup : Bool
  background_refresh_interval : Nat
  max_cache_size : Nat
deriving DecidableEq

/-- `AppCacheConfig` from `types.rs` (fields as used by
`cache_config.rs` and its tests). -/
structure AppCacheConfig where
  theme_cache : CacheConfig
  enable_persistence : Bool
  cache_directory : Option String
deriving DecidableEq

/-- Unix `Path::is_absolute`: the path begins with the root separator. -/
def pathIsAbsolute (s : String) : Bool :=
  match s.data with
  | '/' :: _ => true
  | _ => false

/-- `CacheConfigManager::validate_config` from `cache_config.rs`. -/
def validate_config (config : AppCacheConfig) : Except String Unit :=
  if config.theme_cache.cache_duration_minutes = 0 then
    Except.error "Cache duration must be greater than 0"
  else if config.theme_cache.max_cache_size = 0 then
    Except.error "Max cache size must be greater than 0"
  else if config.theme_cache.background_refresh_interval = 0 then
    Except.error "Background refresh interval must be greater than 0"
  else
    match config.cache_directory with
    | some dir =>
      if !pathIsAbsolute dir then Except.error "Cache directory must be an absolute path"
      else Except.ok ()
    | none => Except.ok ()

/-- Is an `Except` an error? -/
def exceptIsError {ε α : Type} : Except ε α → Bool
  | Except.error _ => true
  | Except.ok _ => false

/-- `update_cache_config` from `cache_config.rs`: validate first, and
only then save; `store` is the persisted configuration storage
(`cache_config.toml`), returned unchanged when validation fails.  (The
in-memory cache-manager update that follows a successful save does not
touch persisted storage and is outside this model.) -/
def update_cache_config (store : Option AppCacheConfig) (config : AppCacheConfig) :
    Except String AppCacheConfig × Option AppCacheConfig :=
  match validate_config config with
  | Except.error e => (Except.error e, store)
  | Except.ok _ => (Except.ok config, some config)

theorem rustCharToUpper_idem (c : Char) :
    rustCharToUpper (rustCharToUpper c) = rustCharToUpper c := by
  by_cases hin : 97 ≤ c.toNat ∧ c.toNat ≤ 122
  · obtain ⟨h1, h2⟩ := hin
    have hc : rustCharToUpper c = Char.ofNat (c.toNat - 32) := by
      rw [rustCharToUpper, if_pos ⟨h1, h2⟩]
    rw [hc]
    generalize c.toNat = n at h1 h2
    interval_cases n <;> decide
  · have hc : rustCharToUpper c = c := by rw [rustCharToUpper, if_neg hin]
    rw [hc]
    exact hc

theorem rustCharToUpper_not_boundary (c : Char) (h : isBoundaryChar c = false) :
    isBoundaryChar (rustCharToUpper c) = false := by
  by_cases hin : 97 ≤ c.toNat ∧ c.toNat ≤ 122
  · obtain ⟨h1, h2⟩ := hin
    have hc : rustCharToUpper c = Char.ofNat (c.toNat - 32) := by
      rw [rustCharToUpper, if_pos ⟨h1, h2⟩]
    rw [hc]
    generalize c.toNat = n at h1 h2
    interval_cases n <;> decide
  · have hc : rustCharToUpper c = c := by rw [rustCharToUpper, if_neg hin]
    rw [hc]
    exact h

theorem titleGo_length (cap : Bool) (d : List Char) : (titleGo cap d).length = d.length := by
  induction d generalizing cap with
  | nil => rfl
  | cons c rest ih =>
    by_cases hb : isBoundaryChar c
    · simp [titleGo, hb, ih]
    · cases cap <;> simp [titleGo, hb, ih]

theorem titleGo_get? (cap : Bool) (d : List Char) : ∀ (i : Nat) (c : Char),
    d.get? i = some c →
    (titleGo cap d).get? i = some (
      if isBoundaryChar c then ' '
      else if (if i = 0 then cap else (d.get? (i - 1)).elim false isBoundaryChar) then
        rustCharToUpper c
      else c) := by
  induction d generalizing cap with
  | nil => intro i c h; simp at h
  | cons p rest ih =>
    intro i c h
    cases i with
    | zero =>
      simp only [List.get?, Option.some.injEq] at h
      subst h
      by_cases hb : isBoundaryChar p
      · simp [titleGo, hb]
      · cases cap <;> simp [titleGo, hb]
    | succ j =>
      have h' : rest.get? j = some c := by simpa [List.get?] using h
      simp only [Nat.add_sub_cancel]
      have hflag : (if j + 1 = 0 then cap else (((p :: rest).get? j).elim false isBoundaryChar))
          = (if j = 0 then isBoundaryChar p
             else ((rest.get? (j - 1)).elim false isBoundaryChar)) := by
        cases j with
        | zero => simp [List.get?]
        | succ k => simp [List.get?]
      by_cases hb : isBoundaryChar p
      · have hh : (titleGo cap (p :: rest)).get? (j + 1) = (titleGo true rest).get? j := by
          simp [titleGo, hb, List.get?]
        rw [hh, ih true j c h', hflag, hb]
      · have hh : (titleGo cap (p :: rest)).get? (j + 1) = (titleGo false rest).get? j := by
          cases cap <;> simp [titleGo, hb, List.get?]
        rw [hh, ih false j c h', hflag]
        simp [hb]

theorem titleGo_false_of_no_boundary (d : List Char)
    (h : ∀ c ∈ d, isBoundaryChar c = false) : titleGo false d = d := by
  induction d with
  | nil => rfl
  | cons c rest ih =>
    have hb := h c (List.mem_cons_self c rest)
    simp [titleGo, hb, ih fun x hx => h x (List.mem_cons_of_mem c hx)]

theorem titleGo_true_of_no_boundary (c : Char) (rest : List Char)
    (h : ∀ x ∈ c :: rest, isBoundaryChar x = false) :
    titleGo true (c :: rest) = rustCharToUpper c :: rest := by
  have hb := h c (List.mem_cons_self c rest)
  simp [titleGo, hb, titleGo_false_of_no_boundary rest
    fun x hx => h x (List.mem_cons_of_mem c hx)]

theorem titleGo_idem_of_no_boundary (d : List Char)
    (h : ∀ c ∈ d, isBoundaryChar c = false) :
    titleGo true (titleGo true d) = titleGo true d := by
  cases d with
  | nil => rfl
  | cons c rest =>
    rw [titleGo_true_of_no_boundary c rest h]
    have h' : ∀ x ∈ rustCharToUpper c :: rest, isBoundaryChar x = false := by
      intro x hx
      rcases List.mem_cons.mp hx with hx | hx
      · subst hx
        exact rustCharToUpper_not_boundary c (h c (List.mem_cons_self c rest))
      · exact h x (List.mem_cons_of_mem c hx)
    rw [titleGo_true_of_no_boundary (rustCharToUpper c) rest h', rustCharToUpper_idem]

/-- C4 (amended): for ASCII directory names, the derived display title
replaces every single `-`/`_` character with a space — so a run of k
boundary characters becomes k spaces, not one — and capitalizes the
first letter at the start of the string and immediately after each
`-`/`_` character; it is idempotent on boundary-free strings.
Pointwise (where, on ASCII, one input character yields exactly one
output character, so positions correspond): output position `i` holds a
space when input position `i` is a boundary character, the uppercased
input character when the `capitalize_next` flag is set there, and the
input character unchanged otherwise.  The ASCII hypothesis scopes the
statement to where the single-character uppercase model is faithful:
non-ASCII characters undergo Unicode uppercasing with possible
multi-character expansion. -/
theorem dir_name_to_title_C4 (s : String) (_hascii : ∀ c ∈ s.data, c.toNat < 128) :
    (dir_name_to_title s).data.length = s.data.length
    ∧ (∀ (i : Nat) (c : Char), s.data.get? i = some c →
        (dir_name_to_title s).data.get? i = some (
          if isBoundaryChar c then ' '
          else if capFlagAt s.data i then rustCharToUpper c else c))
    ∧ ((∀ c ∈ s.data, isBoundaryChar c = false) →
        dir_name_to_title (dir_name_to_title s) = dir_name_to_title s) := by
  refine ⟨titleGo_length true s.data, ?_, ?_⟩
  · intro i c h
    show (titleGo true s.data).get? i = _
    rw [titleGo_get? true s.data i c h]
    rfl
  · intro h
    show String.mk (titleGo true (titleGo true s.data)) = String.mk (titleGo true s.data)
    rw [titleGo_idem_of_no_boundary s.data h]

/-- C4 counterexample: on `"a--b"` the source transform yields `"A  B"`
(one space per boundary character), while the claim's run-collapsing
transform yields `"A B"`; the two differ, so the claim as stated is
false. -/
theorem dir_name_to_title_C4_counterexample :
    dir_name_to_title "a--b" = "A  B" ∧ titleRunCollapse "a--b" = "A B"
    ∧ dir_name_to_title "a--b" ≠ titleRunCollapse "a--b" :=
  ⟨by decide, by decide, by decide⟩

/-- C4 witness: the pointwise description at a concrete input (`'c'` after
the boundary in `"ab-cd"` is capitalized) and idempotence on `"ab"`. -/
theorem dir_name_to_title_C4_witness :
    (dir_name_to_title "ab-cd").data.get? 3 = some 'C'
    ∧ dir_name_to_title (dir_name_to_title "ab") = dir_name_to_title "ab" := by
  constructor
  · have h := (dir_name_to_title_C4 "ab-cd" (by decide)).2.1 3 'c' (by decide)
    have e : (if isBoundaryChar 'c' then ' '
        else if capFlagAt "ab-cd".data 3 then rustCharToUpper 'c' else 'c') = 'C' := by decide
    rw [e] at h
    exact h
  · exact (dir_name_to_title_C4 "ab" (by decide)).2.2 (by decide)

theorem cacheGet_set_self (m : ColorCache) (k : String) (v : Option ThemeColors) :
    cacheGet (cacheSet m k v) k = some v := by
  simp only [cacheGet, cacheSet]
  rw [List.find?_cons_of_pos _ (by simp)]
  rfl

theorem find?_filter_ne (m : List (String × Option ThemeColors)) (k k2 : String)
    (h : ¬ k = k2) :
    (m.filter (fun p => ¬ p.1 = k2)).find? (fun p => p.1 = k)
      = m.find? (fun p => p.1 = k) := by
  induction m with
  | nil => rfl
  | cons a rest ih =>
    by_cases ha : a.1 = k
    · have ha2 : ¬ a.1 = k2 := by rw [ha]; exact h
      rw [List.filter_cons, if_pos (by simpa using ha2),
        List.find?_cons_of_pos _ (by simpa using ha),
        List.find?_cons_of_pos _ (by simpa using ha)]
    · by_cases hb : a.1 = k2
      · rw [List.find?_cons_of_neg _ (by simpa using ha), List.filter_cons,
          if_neg (by simpa using hb), ih]
      · rw [List.find?_cons_of_neg _ (by simpa using ha), List.filter_cons,
          if_pos (by simpa using hb), List.find?_cons_of_neg _ (by simpa using ha), ih]

theorem cacheGet_set_other (m : ColorCache) (k k2 : String) (v : Option ThemeColors)
    (h : ¬ k = k2) : cacheGet (cacheSet m k2 v) k = cacheGet m k := by
  have h2 : ¬ k2 = k := fun e => h e.symm
  simp only [cacheGet, cacheSet]
  rw [List.find?_cons_of_neg _ (by simpa using h2), find?_filter_ne m k k2 h]

theorem cacheGet_applySets_none (ops : List (String × Option ThemeColors)) :
    ∀ (m : ColorCache) (k : String), cacheGet m k = none → (∀ p ∈ ops, ¬ p.1 = k) →
    cacheGet (cacheApplySets ops m) k = none := by
  induction ops with
  | nil => intro m k hm _; exact hm
  | cons p rest ih =>
    intro m k hm hops
    have hp : ¬ p.1 = k := hops p (List.mem_cons_self p rest)
    have hk : ¬ k = p.1 := fun e => hp e.symm
    have step : cacheGet (cacheSet m p.1 p.2) k = none := by
      rw [cacheGet_set_other m k p.1 p.2 hk]; exact hm
    have hfold : cacheApplySets (p :: rest) m = cacheApplySets rest (cacheSet m p.1 p.2) := rfl
    rw [hfold]
    exact ih (cacheSet m p.1 p.2) k step (fun q hq => hops q (List.mem_cons_of_mem p hq))

/-- C6: on the ColorExtractionCache, a key never passed to `set` since
construction or the last `clear` answers `none` (no cached answer) —
stated for the fresh cache, preserved by `set` on other keys, and hence
along any replayed sequence of `set`s avoiding the key; `set k none`
makes `get k` answer `some none` (a cached "no palette", distinct from
the uncached `none`); `set k (some p)` makes it answer `some (some p)`;
after `clear` the size is 0 and every key answers `none`. -/
theorem ColorCache_C6 :
    (∀ k : String, cacheGet cacheNew k = none)
    ∧ (∀ (m : ColorCache) (k : String), cacheGet (cacheSet m k none) k = some none)
    ∧ (∀ (m : ColorCache) (k : String) (p : ThemeColors),
        cacheGet (cacheSet m k (some p)) k = some (some p))
    ∧ (∀ m : ColorCache, cacheSize (cacheClear m) = 0)
    ∧ (∀ (m : ColorCache) (k : String), cacheGet (cacheClear m) k = none)
    ∧ (∀ (m : ColorCache) (k k2 : String) (v : Option ThemeColors),
        ¬ k = k2 → cacheGet (cacheSet m k2 v) k = cacheGet m k)
    ∧ (∀ (m : ColorCache) (ops : List (String × Option ThemeColors)) (k : String),
        cacheGet m k = none → (∀ p ∈ ops, ¬ p.1 = k) →
        cacheGet (cacheApplySets ops m) k = none) := by
  refine ⟨fun k => rfl, fun m k => cacheGet_set_self m k none,
    fun m k p => cacheGet_set_self m k (some p), fun m => rfl, fun m k => rfl,
    fun m k k2 v h => cacheGet_set_other m k k2 v h,
    fun m ops k hm hops => cacheGet_applySets_none ops m k hm hops⟩

/-- C6 witness: a `set` on the key `"other"` leaves the answer for the
distinct key `"k"` unchanged. -/
theorem ColorCache_C6_witness :
    cacheGet (cacheSet cacheNew "other" none) "k" = cacheGet cacheNew "k" :=
  ColorCache_C6.2.2.2.2.2.1 cacheNew "k" "other" none (by decide)

/-- C5: `extract_theme_colors_cached` returns a cached value as is
(leaving the cache unchanged, so no extraction is performed); on a miss
it computes the direct extraction and stores the result — including
`none` — before returning it; consequently a second call for the same
directory with no intervening `set` or `clear` returns the same result
and leaves the cache exactly as the first call left it. -/
theorem extract_theme_colors_cached_C5 :
    (∀ (d : ThemeDir) (ic : Bool) (cc : ColorCache) (nm : String) (v : Option ThemeColors),
        d.name = some nm → cacheGet cc nm = some v →
        extract_theme_colors_cached d ic cc = (v, cc))
    ∧ (∀ (d : ThemeDir) (ic : Bool) (cc : ColorCache) (nm : String),
        d.name = some nm → cacheGet cc nm = none →
        extract_theme_colors_cached d ic cc
          = (extract_theme_colors_direct d ic,
             cacheSet cc nm (extract_theme_colors_direct d ic)))
    ∧ (∀ (d : ThemeDir) (ic : Bool) (cc : ColorCache),
        (extract_theme_colors_cached d ic (extract_theme_colors_cached d ic cc).2).1
          = (extract_theme_colors_cached d ic cc).1
        ∧ (extract_theme_colors_cached d ic (extract_theme_colors_cached d ic cc).2).2
          = (extract_theme_colors_cached d ic cc).2) := by
  refine ⟨?_, ?_, ?_⟩
  · intro d ic cc nm v hn hg
    simp [extract_theme_colors_cached, hn, hg]
  · intro d ic cc nm hn hg
    simp [extract_theme_colors_cached, hn, hg]
  · intro d ic cc
    cases hn : d.name with
    | none => simp [extract_theme_colors_cached, hn]
    | some nm =>
      cases hg : cacheGet cc nm with
      | some v => simp [extract_theme_colors_cached, hn, hg]
      | none =>
        have h1 : extract_theme_colors_cached d ic cc
            = (extract_theme_colors_direct d ic,
               cacheSet cc nm (extract_theme_colors_direct d ic)) := by
          simp [extract_theme_colors_cached, hn, hg]
        rw [h1]
        simp [extract_theme_colors_cached, hn,
          cacheGet_set_self cc nm (extract_theme_colors_direct d ic)]

/-- C5 witness: with `"t"` already cached as "no palette", the call
returns the cached `none` and leaves the cache untouched. -/
theorem extract_theme_colors_cached_C5_witness :
    extract_theme_colors_cached
        ⟨some "t", false, false, none, false, none, false, true, []⟩ false
        (cacheSet cacheNew "t" none)
      = (none, cacheSet cacheNew "t" none) :=
  extract_theme_colors_cached_C5.1 _ false _ "t" none rfl (by decide)

/-- C3: in both the full theme and the metadata record generated from a
directory, `is_custom` is true iff the directory contains a
`custom_theme.json` file, `is_system` is true iff the directory is not
custom and is a symbolic link, the two flags are never both true, and for
a symlinked directory that also carries the custom-metadata file,
`is_custom = true` and `is_system = false` (custom takes precedence). -/
theorem theme_classification_C3 :
    (∀ (d : ThemeDir) (cc cc2 : ColorCache) (t : SysTheme),
        generate_theme_from_directory_async d cc = (Except.ok t, cc2) →
        (t.is_custom = true ↔ d.customIsFile = true)
        ∧ (t.is_system = true ↔ (d.customIsFile = false ∧ d.isSymlink = true))
        ∧ ¬ (t.is_custom = true ∧ t.is_system = true)
        ∧ (d.customIsFile = true → d.isSymlink = true →
            t.is_custom = true ∧ t.is_system = false))
    ∧ (∀ (d : ThemeDir) (m : ThemeMetadata),
        generate_theme_metadata d = Except.ok m →
        (m.is_custom = true ↔ d.customIsFile = true)
        ∧ (m.is_system = true ↔ (d.customIsFile = false ∧ d.isSymlink = true))
        ∧ ¬ (m.is_custom = true ∧ m.is_system = true)
        ∧ (d.customIsFile = true → d.isSymlink = true →
            m.is_custom = true ∧ m.is_system = false)) := by
  constructor
  · intro d cc cc2 t h
    cases hn : d.name with
    | none => rw [generate_theme_from_directory_async, hn] at h; exact absurd h (by simp)
    | some nm =>
      rw [generate_theme_from_directory_async, hn] at h
      have ht : t =
          { dir := nm
            title := dir_name_to_title nm
            description := "Auto-generated theme from " ++ nm
            image := load_theme_image_async d
            is_system := !d.customIsFile && d.isSymlink
            is_custom := d.customIsFile
            colors := (extract_theme_colors_cached d d.customIsFile cc).1 } := by
        have hfst := congrArg Prod.fst h
        simp at hfst
        exact hfst.symm
      subst ht
      cases hc : d.customIsFile <;> cases hs : d.isSymlink <;> simp [hc, hs]
  · intro d m h
    cases hn : d.name with
    | none => rw [generate_theme_metadata, hn] at h; exact absurd h (by simp)
    | some nm =>
      rw [generate_theme_metadata, hn] at h
      have hm : m =
          { dir := nm
            title := dir_name_to_title nm
            is_system := !d.customIsFile && d.isSymlink
            is_custom := d.customIsFile
            has_colors := d.customExists || d.alacrittyExists
            has_image := has_image_files d } := by
        simpa using h.symm
      subst hm
      cases hc : d.customIsFile <;> cases hs : d.isSymlink <;> simp [hc, hs]

/-- C3 witness: a symlinked directory that also contains
`custom_theme.json` is classified custom, not system. -/
theorem theme_classification_C3_witness :
    (⟨"t", "T", "Auto-generated theme from t", "", false, true, none⟩ : SysTheme).is_custom = true
    ∧ (⟨"t", "T", "Auto-generated theme from t", "", false, true, none⟩ : SysTheme).is_system
        = false :=
  (theme_classification_C3.1 ⟨some "t", true, true, none, false, none, true, true, []⟩ cacheNew
    (cacheSet cacheNew "t" none)
    ⟨"t", "T", "Auto-generated theme from t", "", false, true, none⟩ (by decide)).2.2.2 rfl rfl

/-- C9: `validate_config` returns an error iff one of the three numeric
fields is zero or a configured cache directory is not an absolute path;
`update_cache_config` validates before saving, so a configuration with
`cache_duration_minutes = 0` is rejected and the persisted storage is
left unchanged. -/
theorem validate_config_C9 :
    (∀ cfg : AppCacheConfig,
        exceptIsError (validate_config cfg) = true ↔
          (cfg.theme_cache.cache_duration_minutes = 0
           ∨ cfg.theme_cache.max_cache_size = 0
           ∨ cfg.theme_cache.background_refresh_interval = 0
           ∨ (∃ dir, cfg.cache_directory = some dir ∧ pathIsAbsolute dir = false)))
    ∧ (∀ (store : Option AppCacheConfig) (cfg : AppCacheConfig),
        cfg.theme_cache.cache_duration_minutes = 0 →
        exceptIsError (update_cache_config store cfg).1 = true
        ∧ (update_cache_config store cfg).2 = store) := by
  constructor
  · intro cfg
    by_cases h1 : cfg.theme_cache.cache_duration_minutes = 0
    · simp [validate_config, h1, exceptIsError]
    · by_cases h2 : cfg.theme_cache.max_cache_size = 0
      · simp [validate_config, h1, h2, exceptIsError]
      · by_cases h3 : cfg.theme_cache.background_refresh_interval = 0
        · simp [validate_config, h1, h2, h3, exceptIsError]
        · cases hd : cfg.cache_directory with
          | none => simp [validate_config, h1, h2, h3, hd, exceptIsError]
          | some dir =>
            by_cases h4 : pathIsAbsolute dir
            · simp [validate_config, h1, h2, h3, hd, h4, exceptIsError]
            · simp [validate_config, h1, h2, h3, hd, h4, exceptIsError]
  · intro store cfg h
    constructor
    · simp [update_cache_config, validate_config, h, exceptIsError]
    · simp [update_cache_config, validate_config, h]

/-- C9 witness: a submitted configuration with zero cache duration is
rejected and nothing is written to the (empty) persisted storage. -/
theorem validate_config_C9_witness :
    exceptIsError (update_cache_config none ⟨⟨0, true, 10, 1000⟩, false, none⟩).1 = true
    ∧ (update_cache_config none ⟨⟨0, true, 10, 1000⟩, false, none⟩).2 = none :=
  validate_config_C9.2 none ⟨⟨0, true, 10, 1000⟩, false, none⟩ rfl

theorem findImageGo_eq_find? (files : List FileEnt) :
    findImageGo files = match files.find? fileIsImage with
      | none => Except.ok ""
      | some f => convert_image_to_data_url f := by
  induction files with
  | nil => rfl
  | cons f rest ih =>
    by_cases hf : fileIsImage f
    · simp [findImageGo, hf, List.find?_cons_of_pos _ hf]
    · simp [findImageGo, hf, List.find?_cons_of_neg _ hf, ih]

/-- C7 (amended): the theme image is computed from the first directory
entry that is a file whose extension, compared case-insensitively, is in
{png, jpg, jpeg, webp, gif, svg}; the result is
`data:<mime>;base64,<payload>` where `<mime>` is chosen by an exact match
on the lowercase extension spellings only, any other spelling (e.g.
uppercase) falling back to `image/png`; when no entry matches, the
directory cannot be read, or reading the chosen file fails, the image is
the empty string and the unit does not fail. -/
theorem load_theme_image_C7 :
    (∀ d : ThemeDir, d.readDirOk = false → load_theme_image_async d = "")
    ∧ (∀ d : ThemeDir, d.files.find? fileIsImage = none → load_theme_image_async d = "")
    ∧ (∀ (d : ThemeDir) (f : FileEnt), d.readDirOk = true →
        d.files.find? fileIsImage = some f →
        (f.content = none → load_theme_image_async d = "")
        ∧ (∀ data : List Nat, f.content = some data →
            load_theme_image_async d
              = "data:" ++ mimeForExt f.ext ++ ";base64," ++ String.mk (base64_encode data))) := by
  refine ⟨?_, ?_, ?_⟩
  · intro d hrd
    simp [load_theme_image_async, find_and_convert_image, hrd]
  · intro d hfind
    by_cases hrd : d.readDirOk
    · simp [load_theme_image_async, find_and_convert_image, hrd, findImageGo_eq_find?, hfind]
    · simp [load_theme_image_async, find_and_convert_image, hrd]
  · intro d f hrd hfind
    constructor
    · intro hc
      simp [load_theme_image_async, find_and_convert_image, hrd, findImageGo_eq_find?, hfind,
        convert_image_to_data_url, hc]
    · intro data hc
      simp [load_theme_image_async, find_and_convert_image, hrd, findImageGo_eq_find?, hfind,
        convert_image_to_data_url, hc]

/-- C7 counterexample: a directory whose only file has extension `"GIF"`
is selected by the case-insensitive scan, but the produced data URL uses
`image/png`, not the claim's extension-corresponding `image/gif`, because
the MIME match in `convert_image_to_data_url` is an exact match on
lowercase spellings. -/
theorem load_theme_image_C7_counterexample :
    load_theme_image_async
        ⟨some "g", false, false, none, false, none, false, true,
          [⟨true, some "GIF", some [1, 2, 3]⟩]⟩
      = "data:image/png;base64,AQID"
    ∧ mimeForExtClaim "GIF" = "image/gif"
    ∧ ("data:image/png;base64,AQID" : String) ≠ "data:image/gif;base64,AQID" :=
  ⟨by decide, by decide, by decide⟩

/-- C7 witness: a lowercase `png` file becomes a `data:image/png` URL
with the base64 payload of its bytes. -/
theorem load_theme_image_C7_witness :
    load_theme_image_async
        ⟨some "p", false, false, none, false, none, false, true,
          [⟨true, some "png", some [1, 2, 3]⟩]⟩
      = "data:image/png;base64,AQID" := by
  have h := (load_theme_image_C7.2.2
      ⟨some "p", false, false, none, false, none, false, true,
        [⟨true, some "png", some [1, 2, 3]⟩]⟩
      ⟨true, some "png", some [1, 2, 3]⟩ rfl (by decide)).2 [1, 2, 3] rfl
  rw [h]
  decide

theorem b64val_idx : ∀ v : Nat, v < 64 → b64val (b64idx v) = some v := by decide

theorem b64idx_mem (v : Nat) : b64idx v ∈ b64CHARS := by
  unfold b64idx List.getD
  cases h : b64CHARS.get? v with
  | none => simp [h]; decide
  | some c =>
    simp only [h, Option.getD_some]
    exact List.get?_mem h

theorem b64idx_ne_pad (v : Nat) : b64idx v ≠ '=' := by
  intro h
  have hm := b64idx_mem v
  rw [h] at hm
  exact absurd hm (by decide)

theorem base64_encode_length : ∀ l : List Nat,
    (base64_encode l).length = 4 * ((l.length + 2) / 3)
  | [] => by simp [base64_encode]
  | [a] => by simp [base64_encode]
  | [a, b] => by simp [base64_encode]
  | a :: b :: c :: rest => by
    have ih := base64_encode_length rest
    simp [base64_encode, ih]
    omega

theorem base64_encode_empty_iff : ∀ l : List Nat, (base64_encode l = [] ↔ l = [])
  | [] => by simp [base64_encode]
  | [a] => by simp [base64_encode]
  | [a, b] => by simp [base64_encode]
  | a :: b :: c :: rest => by simp [base64_encode]

theorem base64_encode_alphabet : ∀ l : List Nat, ∀ ch ∈ base64_encode l,
    ch ∈ b64CHARS ∨ ch = '='
  | [] => by simp [base64_encode]
  | [a] => by
    intro ch hch
    simp only [base64_encode, List.mem_cons, List.not_mem_nil, or_false] at hch
    rcases hch with rfl | rfl | rfl | rfl
    · exact Or.inl (b64idx_mem _)
    · exact Or.inl (b64idx_mem _)
    · exact Or.inr rfl
    · exact Or.inr rfl
  | [a, b] => by
    intro ch hch
    simp only [base64_encode, List.mem_cons, List.not_mem_nil, or_false] at hch
    rcases hch with rfl | rfl | rfl | rfl
    · exact Or.inl (b64idx_mem _)
    · exact Or.inl (b64idx_mem _)
    · exact Or.inl (b64idx_mem _)
    · exact Or.inr rfl
  | a :: b :: c :: rest => by
    intro ch hch
    simp only [base64_encode, List.mem_cons] at hch
    rcases hch with rfl | rfl | rfl | rfl | hch
    · exact Or.inl (b64idx_mem _)
    · exact Or.inl (b64idx_mem _)
    · exact Or.inl (b64idx_mem _)
    · exact Or.inl (b64idx_mem _)
    · exact base64_encode_alphabet rest ch hch

theorem base64_encode_clones : ∀ l : List Nat,
    base64_encode_sys l = base64_encode l ∧ base64_encode_custom l = base64_encode l
  | [] => ⟨rfl, rfl⟩
  | [a] => ⟨rfl, rfl⟩
  | [a, b] => ⟨rfl, rfl⟩
  | a :: b :: c :: rest => by
    have ih := base64_encode_clones rest
    refine ⟨?_, ?_⟩
    · simp [base64_encode, base64_encode_sys, ih.1]
    · simp [base64_encode, base64_encode_custom, ih.2]

theorem base64_decode_encode : ∀ l : List Nat, (∀ x ∈ l, x < 256) →
    base64_decode (base64_encode l) = some l
  | [], _ => rfl
  | [a], h => by
    have ha : a < 256 := h a (by simp)
    show base64_decode
        [b64idx (a * 65536 / 262144 % 64), b64idx (a * 65536 / 4096 % 64), '=', '='] = some [a]
    have h1 := b64val_idx (a * 65536 / 262144 % 64) (Nat.mod_lt _ (by omega))
    have h2 := b64val_idx (a * 65536 / 4096 % 64) (Nat.mod_lt _ (by omega))
    simp [base64_decode, h1, h2]
    omega
  | [a, b], h => by
    have ha : a < 256 := h a (by simp)
    have hb : b < 256 := h b (by simp)
    show base64_decode
        [b64idx ((a * 65536 + b * 256) / 262144 % 64),
         b64idx ((a * 65536 + b * 256) / 4096 % 64),
         b64idx ((a * 65536 + b * 256) / 64 % 64), '='] = some [a, b]
    have h1 := b64val_idx ((a * 65536 + b * 256) / 262144 % 64) (Nat.mod_lt _ (by omega))
    have h2 := b64val_idx ((a * 65536 + b * 256) / 4096 % 64) (Nat.mod_lt _ (by omega))
    have h3 := b64val_idx ((a * 65536 + b * 256) / 64 % 64) (Nat.mod_lt _ (by omega))
    have e3 : (b64idx ((a * 65536 + b * 256) / 64 % 64) = '=') = False :=
      eq_false (b64idx_ne_pad _)
    simp [base64_decode, e3, h1, h2, h3]
    omega
  | a :: b :: c :: rest, h => by
    have ha : a < 256 := h a (by simp)
    have hb : b < 256 := h b (by simp)
    have hc : c < 256 := h c (by simp)
    have ih := base64_decode_encode rest (fun x hx => h x (by simp [hx]))
    show base64_decode
        (b64idx ((a * 65536 + b * 256 + c) / 262144 % 64)
          :: b64idx ((a * 65536 + b * 256 + c) / 4096 % 64)
          :: b64idx ((a * 65536 + b * 256 + c) / 64 % 64)
          :: b64idx ((a * 65536 + b * 256 + c) % 64)
          :: base64_encode rest) = some (a :: b :: c :: rest)
    have h1 := b64val_idx ((a * 65536 + b * 256 + c) / 262144 % 64) (Nat.mod_lt _ (by omega))
    have h2 := b64val_idx ((a * 65536 + b * 256 + c) / 4096 % 64) (Nat.mod_lt _ (by omega))
    have h3 := b64val_idx ((a * 65536 + b * 256 + c) / 64 % 64) (Nat.mod_lt _ (by omega))
    have h4 := b64val_idx ((a * 65536 + b * 256 + c) % 64) (Nat.mod_lt _ (by omega))
    have e3 : (b64idx ((a * 65536 + b * 256 + c) / 64 % 64) = '=') = False :=
      eq_false (b64idx_ne_pad _)
    have e4 : (b64idx ((a * 65536 + b * 256 + c) % 64) = '=') = False :=
      eq_false (b64idx_ne_pad _)
    simp [base64_decode, e3, e4, h1, h2, h3, h4, ih]
    omega

/-- C10: `base64_encode` is the standard RFC 4648 base64 encoding with
`=` padding — the output is empty iff the input is, its length is
`4 * ceil(n / 3)`, every output character is in the 64-character base64
alphabet or `'='`, a standard decoder recovers the input bytes exactly,
and the three textually identical private copies compute the same
function. -/
theorem base64_encode_C10 (l : List Nat) :
    (base64_encode l = [] ↔ l = [])
    ∧ (base64_encode l).length = 4 * ((l.length + 2) / 3)
    ∧ (∀ ch ∈ base64_encode l, ch ∈ b64CHARS ∨ ch = '=')
    ∧ ((∀ x ∈ l, x < 256) → base64_decode (base64_encode l) = some l)
    ∧ base64_encode_sys l = base64_encode l
    ∧ base64_encode_custom l = base64_encode l :=
  ⟨base64_encode_empty_iff l, base64_encode_length l, base64_encode_alphabet l,
   fun h => base64_decode_encode l h, (base64_encode_clones l).1, (base64_encode_clones l).2⟩

/-- C10 witness: decoding the encoding of the bytes of `"hello"`
recovers them. -/
theorem base64_encode_C10_witness :
    base64_decode (base64_encode [104, 101, 108, 108, 111]) = some [104, 101, 108, 108, 111] :=
  (base64_encode_C10 [104, 101, 108, 108, 111]).2.2.2.1 (by decide)

theorem runUnits_length : ∀ (dirs : List ThemeDir) (cc : ColorCache),
    (runUnits dirs cc).1.length = dirs.length
  | [], _ => rfl
  | d :: rest, cc => by
    simp [runUnits, runUnits_length rest]

theorem runUnits_get? : ∀ (dirs : List ThemeDir) (cc : ColorCache) (i : Nat) (d : ThemeDir),
    dirs.get? i = some d →
    ∃ r, (runUnits dirs cc).1.get? i = some r
      ∧ (d.name = none → r = Except.error "Invalid directory name")
      ∧ (∀ nm, d.name = some nm → ∃ t : SysTheme, r = Except.ok t ∧ t.dir = nm)
  | [], _, i, d => by intro h; simp at h
  | d0 :: rest, cc, 0, d => by
    intro h
    simp only [List.get?, Option.some.injEq] at h
    subst h
    refine ⟨(generate_theme_from_directory_async d0 cc).1, by simp [runUnits], ?_, ?_⟩
    · intro hn
      simp [generate_theme_from_directory_async, hn]
    · intro nm hn
      have hok : (generate_theme_from_directory_async d0 cc).1 =
          Except.ok
            { dir := nm
              title := dir_name_to_title nm
              description := "Auto-generated theme from " ++ nm
              image := load_theme_image_async d0
              is_system := !d0.customIsFile && d0.isSymlink
              is_custom := d0.customIsFile
              colors := (extract_theme_colors_cached d0 d0.customIsFile cc).1 } := by
        simp [generate_theme_from_directory_async, hn]
      exact ⟨_, hok, rfl⟩
  | d0 :: rest, cc, Nat.succ i, d => by
    intro h
    have h' : rest.get? i = some d := by simpa [List.get?] using h
    have hr := runUnits_get? rest (generate_theme_from_directory_async d0 cc).2 i d h'
    obtain ⟨r, hget, hnone, hsome⟩ := hr
    refine ⟨r, ?_, hnone, hsome⟩
    show ((generate_theme_from_directory_async d0 cc).1
        :: (runUnits rest (generate_theme_from_directory_async d0 cc).2).1).get? (i + 1)
      = some r
    simpa [List.get?] using hget

/-- C1: when the home directory resolves, the themes root exists and its
enumeration succeeds, `load_themes_parallel` returns `Ok` — the empty
list for zero candidate directories, and otherwise exactly the themes of
the per-directory units that succeeded (`unitSuccesses` of the unit
outcomes), so a failing unit is dropped without error; conversely an
`Err` result implies home resolution, root existence, or enumeration
failed.  Each unit's outcome exists at its directory's index regardless
of its siblings: it fails exactly when the directory name is
unrepresentable and otherwise succeeds with that directory's theme. -/
theorem load_themes_parallel_C1 :
    (∀ (env : LoaderEnv) (cc : ColorCache) (dirs : List ThemeDir),
        env.homeResolves = true → env.rootExists = true →
        collect_theme_paths env.readDir = Except.ok dirs →
        (load_themes_parallel env cc).1 = Except.ok (unitSuccesses (runUnits dirs cc).1)
        ∧ (dirs = [] → (load_themes_parallel env cc).1 = Except.ok []))
    ∧ (∀ (env : LoaderEnv) (cc : ColorCache) (e : String),
        (load_themes_parallel env cc).1 = Except.error e →
        env.homeResolves = false ∨ env.rootExists = false
        ∨ ∃ e2, collect_theme_paths env.readDir = Except.error e2)
    ∧ (∀ (dirs : List ThemeDir) (cc : ColorCache),
        (runUnits dirs cc).1.length = dirs.length
        ∧ (∀ (i : Nat) (d : ThemeDir), dirs.get? i = some d →
            ∃ r, (runUnits dirs cc).1.get? i = some r
              ∧ (d.name = none → r = Except.error "Invalid directory name")
              ∧ (∀ nm, d.name = some nm →
                  ∃ t : SysTheme, r = Except.ok t ∧ t.dir = nm))) := by
  refine ⟨?_, ?_, fun dirs cc => ⟨runUnits_length dirs cc, runUnits_get? dirs cc⟩⟩
  · intro env cc dirs hh hr hc
    constructor
    · cases dirs with
      | nil => simp [load_themes_parallel, hh, hr, hc, runUnits, unitSuccesses]
      | cons d rest => simp [load_themes_parallel, hh, hr, hc]
    · intro hd
      subst hd
      simp [load_themes_parallel, hh, hr, hc]
  · intro env cc e h
    by_cases hh : env.homeResolves
    · by_cases hr : env.rootExists
      · cases hc : collect_theme_paths env.readDir with
        | error e2 => exact Or.inr (Or.inr ⟨e2, rfl⟩)
        | ok dirs =>
          exfalso
          cases dirs with
          | nil => simp [load_themes_parallel, hh, hr, hc] at h
          | cons d rest => simp [load_themes_parallel, hh, hr, hc] at h
      · exact Or.inr (Or.inl (by simpa using hr))
    · exact Or.inl (by simpa using hh)

/-- C1 witness: a root with one unrepresentable-name directory and one
valid directory loads to `Ok` with exactly the valid directory's theme —
the failing unit is excluded without failing the batch. -/
theorem load_themes_parallel_C1_witness :
    (load_themes_parallel
        ⟨true, true, Except.ok
          [Except.ok ⟨true, ⟨none, false, false, none, false, none, false, true, []⟩⟩,
           Except.ok ⟨true, ⟨some "t", false, false, none, false, none, false, true, []⟩⟩]⟩
        cacheNew).1
      = Except.ok [⟨"t", "T", "Auto-generated theme from t", "", false, false, none⟩] := by
  have h := (load_themes_parallel_C1.1
      ⟨true, true, Except.ok
        [Except.ok ⟨true, ⟨none, false, false, none, false, none, false, true, []⟩⟩,
         Except.ok ⟨true, ⟨some "t", false, false, none, false, none, false, true, []⟩⟩]⟩
      cacheNew
      [⟨none, false, false, none, false, none, false, true, []⟩,
       ⟨some "t", false, false, none, false, none, false, true, []⟩]
      rfl rfl (by decide)).1
  rw [h]
  decide

/-- C2 (amended): when the fresh theme load fails during
`refresh_theme_cache`, the error is propagated (wrapped in the refresh
error message), but the previously cached snapshot is not left intact:
the refresh invalidates the cache up front, so a failed refresh leaves
the cache blanked — an empty, invalid snapshot — regardless of what the
snapshot held before. -/
theorem refresh_theme_cache_C2 (env : LoaderEnv) (cc : ColorCache) (c : CacheState) (e : String)
    (hload : (load_themes_parallel env cacheNew).1 = Except.error e) :
    (refresh_theme_cache env cc (some c)).1
      = Except.error ("Failed to load themes during cache refresh: " ++ e)
    ∧ (refresh_theme_cache env cc (some c)).2.2 = some ⟨[], false⟩ := by
  constructor <;>
    simp [refresh_theme_cache, get_sys_themes, get_sys_themes_direct, is_cache_valid,
      cache_invalidate, cache_is_empty, cache_get_themes, hload]

/-- C2 witness: a refresh whose load fails (home directory unresolved)
returns the wrapped error and leaves the cache emptied. -/
theorem refresh_theme_cache_C2_witness :
    (refresh_theme_cache ⟨false, true, Except.ok []⟩ cacheNew (some ⟨[], true⟩)).1
      = Except.error ("Failed to load themes during cache refresh: "
          ++ "Failed to get home directory")
    ∧ (refresh_theme_cache ⟨false, true, Except.ok []⟩ cacheNew (some ⟨[], true⟩)).2.2
      = some ⟨[], false⟩ :=
  refresh_theme_cache_C2 ⟨false, true, Except.ok []⟩ cacheNew ⟨[], true⟩
    "Failed to get home directory" (by decide)

/-- C2 counterexample: starting from a non-empty cached snapshot, a
refresh whose fresh load fails (themes root missing) returns an error —
but the resulting snapshot is empty, not the prior non-empty snapshot,
so the claim that a failed refresh leaves the previous snapshot intact
is false on `refresh_theme_cache`, which invalidates before loading. -/
theorem refresh_theme_cache_C2_counterexample :
    (refresh_theme_cache ⟨true, false, Except.ok []⟩ cacheNew
        (some ⟨[⟨"a", "A", "x", "", false, false, none⟩], true⟩)).2.2
      = some ⟨[], false⟩
    ∧ exceptIsError (refresh_theme_cache ⟨true, false, Except.ok []⟩ cacheNew
        (some ⟨[⟨"a", "A", "x", "", false, false, none⟩], true⟩)).1 = true
    ∧ ([⟨"a", "A", "x", "", false, false, none⟩] : List SysTheme) ≠ [] :=
  ⟨by decide, by decide, by decide⟩

/-- C8: when a theme cache is available but its snapshot is invalid or
empty and the fresh filesystem load fails, `get_themes_cached` still
returns `Ok` with the cache's stored theme list whenever that list is
non-empty (stale fallback); the load error reaches the caller only when
the stored list is empty. -/
theorem get_themes_cached_C8 (env : LoaderEnv) (cc : ColorCache) (c : CacheState) (e : String)
    (hinvalid : is_cache_valid c = false ∨ cache_is_empty c = true)
    (hload : (load_themes_parallel env cc).1 = Except.error e) :
    (c.themes.isEmpty = false →
      (get_themes_cached env cc (some c)).1 = Except.ok c.themes)
    ∧ (c.themes.isEmpty = true →
      (get_themes_cached env cc (some c)).1 = Except.error e) := by
  have hcond : (is_cache_valid c && !cache_is_empty c) = false := by
    rcases hinvalid with h | h <;> simp [h]
  constructor <;> intro hemp <;>
    simp [get_themes_cached, hcond, get_sys_themes, get_sys_themes_direct, hload,
      cache_get_themes, hemp]

/-- C8 witness: a stale but non-empty snapshot is served as `Ok` when
the fresh load fails because the themes root is missing. -/
theorem get_themes_cached_C8_witness :
    (get_themes_cached ⟨true, false, Except.ok []⟩ cacheNew
        (some ⟨[⟨"a", "A", "x", "", false, false, none⟩], false⟩)).1
      = Except.ok [⟨"a", "A", "x", "", false, false, none⟩] :=
  (get_themes_cached_C8 ⟨true, false, Except.ok []⟩ cacheNew
      ⟨[⟨"a", "A", "x", "", false, false, none⟩], false⟩
      "Themes directory does not exist" (Or.inl (by decide)) (by decide)).1 (by decide)
